import Mathlib

/-!
# Shallow embedding of the Beatly audio-analysis backend

Definitions are translated from `src/backend/app/services/analysis.py`,
`src/backend/app/routes/playlists.py` and `src/backend/app/routes/tracks.py`.
Python floats are modelled as exact rationals (`ℚ`), Python ints as `Int`,
Python dicts holding analysis records as Lean structures, and the on-disk
JSON caches as explicit stores.  External collaborators (librosa feature
extraction, the Demucs subprocess, HTTP I/O) enter only through their
output values, which appear as explicit parameters.
-/

namespace Beatly

/-! ## Numeric primitives -/

/-- Python `int(x)` applied to a float: truncation toward zero. -/
def ratTrunc (x : ℚ) : Int := if 0 ≤ x then ⌊x⌋ else ⌈x⌉

/-- Python `round(x)` with no digits: round half to even (banker's rounding). -/
def pyRound (x : ℚ) : Int :=
  let f := ⌊x⌋
  let r := x - (f : ℚ)
  if r < 1/2 then f
  else if 1/2 < r then f + 1
  else if f % 2 = 0 then f else f + 1

/-- Python `round(x, 3)`: rounding to 3 decimal places. -/
def round3 (x : ℚ) : ℚ := (pyRound (x * 1000) : ℚ) / 1000

/-! ## The analysis record -/

/-- The beat-grid sub-record of an analysis (`analysis.py`, lines 245-250). -/
structure BeatGrid where
  bpm : ℚ
  downbeats : List ℚ
  beats : List ℚ
  barLength : Int
deriving DecidableEq

/-- An analysis record as produced by `analyze_audio` and persisted by the
cache (`analysis.py`, lines 237-254). -/
structure Analysis where
  trackId : Int
  bpm : ℚ
  key : String
  keyNumber : Int
  keyMode : String
  energy : ℚ
  energyCurve : List ℚ
  beatGrid : BeatGrid
  drops : List ℚ
  peaks : List ℚ
  phraseMarkers : List ℚ
deriving DecidableEq

/-! ## The compatibility scorer (`analysis.py`, lines 22-48 and 433-630) -/

/-- `CAMELOT_MAP` from `analysis.py`, lines 22-48: key name to
(Camelot number, mode letter). -/
def CAMELOT_MAP : List (String × Int × String) := [
  ("A minor", (8, "A")), ("A# minor", (3, "A")), ("Bb minor", (3, "A")),
  ("B minor", (10, "A")),
  ("C minor", (5, "A")),
  ("C# minor", (12, "A")), ("Db minor", (12, "A")),
  ("D minor", (7, "A")),
  ("D# minor", (2, "A")), ("Eb minor", (2, "A")),
  ("E minor", (9, "A")),
  ("F minor", (4, "A")),
  ("F# minor", (11, "A")), ("Gb minor", (11, "A")),
  ("G minor", (6, "A")),
  ("G# minor", (1, "A")), ("Ab minor", (1, "A")),
  ("A major", (11, "B")),
  ("A# major", (6, "B")), ("Bb major", (6, "B")),
  ("B major", (1, "B")),
  ("C major", (8, "B")),
  ("C# major", (3, "B")), ("Db major", (3, "B")),
  ("D major", (10, "B")),
  ("D# major", (5, "B")), ("Eb major", (5, "B")),
  ("E major", (12, "B")),
  ("F major", (7, "B")),
  ("F# major", (4, "B")), ("Gb major", (4, "B")),
  ("G major", (9, "B")),
  ("G# major", (2, "B")), ("Ab major", (2, "B"))]

/-- `CAMELOT_MAP.get(key, (8, "A"))`. -/
def camelotGet (key : String) : Int × String :=
  (CAMELOT_MAP.lookup key).getD (8, "A")

/-- Python `str.strip()` modelled at the character-list level:
whitespace removed from both ends. -/
def pyStrip (s : String) : String :=
  String.mk (((s.data.dropWhile Char.isWhitespace).reverse.dropWhile
    Char.isWhitespace).reverse)

/-- Python `str.endswith(t)` modelled at the character-list level. -/
def pyEndsWith (s t : String) : Bool := t.data.isSuffixOf s.data

/-- Python `c in s` for a single character, at the character-list level. -/
def pyContainsChar (s : String) (c : Char) : Bool := s.data.contains c

/-- `normalize_key` from `calculate_mix_compatibility`
(`analysis.py`, lines 555-561; identical inner function at 467-474). -/
def normalize_key (key : String) : String :=
  let key := pyStrip key
  if pyEndsWith key "m" && !(pyContainsChar key ' ') then key.dropRight 1 ++ " minor"
  else if !(pyContainsChar key ' ') then key ++ " major"
  else key

/-- The key sub-score shared verbatim by `calculate_compatibility_score`
(lines 476-498) and `calculate_mix_compatibility` (lines 563-585). -/
def keyScoreVal (keyA keyB : String) : Int :=
  let ca := camelotGet (normalize_key keyA)
  let cb := camelotGet (normalize_key keyB)
  if ca.1 = cb.1 ∧ ca.2 = cb.2 then 100
  else if ca.1 = cb.1 then 80
  else
    let distance : Int := min |ca.1 - cb.1| (12 - |ca.1 - cb.1|)
    if distance = 1 ∧ ca.2 = cb.2 then 90
    else if distance = 1 then 65
    else if distance ≤ 2 then 55
    else max 20 (50 - distance * 5)

/-- The energy sub-score shared verbatim by `calculate_compatibility_score`
(lines 500-518) and `calculate_mix_compatibility` (lines 587-605). -/
def energyScoreVal (energyA energyB : ℚ) : Int :=
  let d := energyB - energyA
  if 0 ≤ d ∧ d < 0.15 then 100
  else if |d| < 0.1 then 95
  else if 0.15 ≤ d ∧ d < 0.3 then 85
  else if -0.15 ≤ d ∧ d < 0 then 80
  else if |d| < 0.3 then 70
  else if |d| < 0.5 then 55
  else 40

/-- BPM sub-score of `calculate_mix_compatibility` (`analysis.py`,
lines 533-552); note the fallback branch truncates: `50 - int(bpm_diff)`. -/
def bpmScoreMix (bpmA bpmB : ℚ) : Int :=
  let ratio := if bpmB > 0 then bpmA / bpmB else 1
  let diff := |1 - ratio| * 100
  if diff < 1 then 100
  else if diff < 3 then 95
  else if diff < 6 then 85
  else if diff < 10 then 70
  else
    let doubleDiff := |1 - ratio * 2| * 100
    let halfDiff := |1 - ratio / 2| * 100
    if min doubleDiff halfDiff < 6 then 80
    else max 10 (50 - ratTrunc diff)

/-- BPM sub-score of `calculate_compatibility_score` (`analysis.py`,
lines 440-460); its fallback branch `max(10, 50 - bpm_diff)` stays a float. -/
def bpmScoreSimple (bpmA bpmB : ℚ) : ℚ :=
  let ratio := if bpmB > 0 then bpmA / bpmB else 1
  let diff := |1 - ratio| * 100
  if diff < 1 then 100
  else if diff < 3 then 95
  else if diff < 6 then 85
  else if diff < 10 then 70
  else
    let doubleDiff := |1 - ratio * 2| * 100
    let halfDiff := |1 - ratio / 2| * 100
    if min doubleDiff halfDiff < 6 then 80
    else max 10 (50 - diff)

/-- `calculate_compatibility_score` (`analysis.py`, lines 433-523):
the plain 0-100 score used as the edge weight by the smart orderer. -/
def calculate_compatibility_score (a b : Analysis) : Int :=
  ratTrunc (bpmScoreSimple a.bpm b.bpm * 0.4 +
    (keyScoreVal a.key b.key : ℚ) * 0.35 +
    (energyScoreVal a.energy b.energy : ℚ) * 0.25)

/-- Recommendation text thresholds (`analysis.py`, lines 611-622). -/
def recommendationFor (overall : Int) : String :=
  if overall ≥ 90 then "Perfect match! These tracks will blend seamlessly."
  else if overall ≥ 80 then "Great mix! Minor adjustments may be needed."
  else if overall ≥ 70 then "Good mix. Consider tempo sync and EQ adjustments."
  else if overall ≥ 60 then "Challenging mix. Use longer transition or different technique."
  else if overall ≥ 50 then "Difficult mix. Consider using a bridge track."
  else "Not recommended. These tracks may clash."

/-- Return value of `calculate_mix_compatibility` (`analysis.py`, lines 624-630). -/
structure MixCompat where
  score : Int
  bpmMatch : Int
  keyMatch : Int
  energyFlow : Int
  recommendation : String
deriving DecidableEq

/-- `calculate_mix_compatibility` (`analysis.py`, lines 526-630). -/
def calculate_mix_compatibility (a b : Analysis) : MixCompat :=
  let bpm_score := bpmScoreMix a.bpm b.bpm
  let key_score := keyScoreVal a.key b.key
  let energy_score := energyScoreVal a.energy b.energy
  let overall := ratTrunc ((bpm_score : ℚ) * 0.4 + (key_score : ℚ) * 0.35 +
    (energy_score : ℚ) * 0.25)
  { score := overall
    bpmMatch := bpm_score
    keyMatch := key_score
    energyFlow := energy_score
    recommendation := recommendationFor overall }

/-- Analysis record with the mock shape used by the repository's own tests
(`tests/test_analysis.py`, `create_mock_analysis`). -/
def mkAnalysis (id : Int) (bpm : ℚ) (key : String) (energy : ℚ) : Analysis :=
  { trackId := id
    bpm := bpm
    key := key
    keyNumber := 8
    keyMode := "minor"
    energy := energy
    energyCurve := [0.5, 0.6, 0.7, 0.8, 0.7]
    beatGrid := { bpm := bpm, downbeats := [0, 1.875, 3.75],
                  beats := [0, 0.46875, 0.9375, 1.40625, 1.875], barLength := 4 }
    drops := [60, 180]
    peaks := [30, 90, 150]
    phraseMarkers := [0, 30, 60, 90, 120] }

/-! ## The analysis cache (`analysis.py`, lines 257-270)

The per-track JSON files under `settings.analysis_dir` are modelled as a map
from track id to the persisted file content: absent, a valid JSON
serialization of an analysis record (Python's `json.dump` / `json.load`
round-trips such records exactly), or malformed bytes that `json.load`
rejects.  A raised Python exception is an `Except.error`. -/

/-- Content of one persisted cache file. -/
inductive Persisted where
  | record (a : Analysis)
  | malformed (raw : String)
deriving DecidableEq

/-- The on-disk analysis cache: one optional file per track id. -/
def Store : Type := Int → Option Persisted

/-- `cache_analysis` (`analysis.py`, lines 257-261): unconditional overwrite
of the track's cache file with the serialized record. -/
def cache_analysis (store : Store) (track_id : Int) (analysis : Analysis) : Store :=
  fun t => if t = track_id then some (.record analysis) else store t

/-- `get_cached_analysis` (`analysis.py`, lines 264-270): returns `none` if
the file does not exist, the parsed record if it is valid JSON, and raises
(`json.load`) if the file exists but is malformed. -/
def get_cached_analysis (store : Store) (track_id : Int) :
    Except String (Option Analysis) :=
  match store track_id with
  | none => .ok none
  | some (.record a) => .ok (some a)
  | some (.malformed raw) => .error ("JSONDecodeError while parsing " ++ raw)

/-- The cache interaction of the `analyze_track` route (`tracks.py`,
lines 187-229): a cached record is returned as-is; a miss downloads and
analyzes (the fresh result is a parameter standing for the
librosa collaborator) and writes through the cache; an exception raised
while reading the cache propagates out of the handler (HTTP 500) before any
recompute or write happens. -/
def analyze_track (store : Store) (track_id : Int) (fresh : Analysis) :
    Except String (Analysis × Store) :=
  match get_cached_analysis store track_id with
  | .error e => .error e
  | .ok (some cached) => .ok (cached, store)
  | .ok none => .ok (fresh, cache_analysis store track_id fresh)

/-- A store holding one malformed record, for track 42. -/
def corruptStore : Store :=
  fun t => if t = 42 then some (.malformed "not valid json") else none

/-! ## The smart orderer (`playlists.py`, lines 181-251)

The HTTP and SoundCloud plumbing of the endpoint is external; the ordering
logic receives the playlist as a list of (track id, optional cached
analysis) pairs, the analysis coming from `get_cached_analysis`. -/

/-- One playlist entry: track id plus its cached analysis, if any. -/
structure TrackEntry where
  id : Int
  analysis : Option Analysis

/-- `track_analyses` (`playlists.py`, lines 211-215): the analyzed subset of
the playlist, in original order. -/
def analyzedOf (tracks : List TrackEntry) : List (Int × Analysis) :=
  tracks.filterMap (fun t => t.analysis.map (fun a => (t.id, a)))

/-- The inner selection loop of `get_smart_order` (`playlists.py`, lines
235-246) applied to the nonempty remaining list `x :: l`.  The Python loop
scans left to right and replaces its best candidate only on a strictly
greater score, so it selects the leftmost maximum; since every score is at
least 21 (`calculate_compatibility_score_ge`), the `best_score = -1`
initialization never survives the first iteration.  Returns the chosen
element and the rest (`remaining.pop(best_index)`), order preserved. -/
def extract (cur : Analysis) (x : Int × Analysis) :
    List (Int × Analysis) → (Int × Analysis) × List (Int × Analysis)
  | [] => (x, [])
  | y :: ys =>
    let p := extract cur y ys
    if calculate_compatibility_score cur p.1.2 > calculate_compatibility_score cur x.2
    then (p.1, x :: p.2)
    else (x, y :: ys)

/-- The greedy while-loop of `get_smart_order` (`playlists.py`, lines
234-249), with the remaining-list length as explicit fuel: each iteration
pops exactly one element, so fuel `remaining.length` runs the loop to
exhaustion.  Returns the ids placed after the start track together with the
association list of edge scores keyed "from->to". -/
def greedyGo : Nat → (Int × Analysis) → List (Int × Analysis) →
    List Int × List (String × Int)
  | 0, _, _ => ([], [])
  | _ + 1, _, [] => ([], [])
  | n + 1, cur, z :: zs =>
    let p := extract cur.2 z zs
    let best_score := calculate_compatibility_score cur.2 p.1.2
    let rest := greedyGo n p.1 p.2
    (p.1.1 :: rest.1,
     (toString cur.1 ++ "->" ++ toString p.1.1, best_score) :: rest.2)

/-- Return value of the smart-order endpoint (`playlists.py`, lines 219-223
and 251). -/
structure SmartOrderResult where
  order : List Int
  scores : List (String × Int)
  message : Option String
deriving DecidableEq

/-- `get_smart_order` (`playlists.py`, lines 210-251), after the playlist
and the cached analyses have been fetched. -/
def get_smart_order (tracks : List TrackEntry) : SmartOrderResult :=
  let track_analyses := analyzedOf tracks
  if track_analyses.length < 2 then
    { order := tracks.map (fun t => t.id), scores := [],
      message := some "Not enough tracks analyzed for smart ordering" }
  else
    match track_analyses with
    | [] =>
      -- unreachable: the guard above ensures at least 2 analyzed tracks
      { order := tracks.map (fun t => t.id), scores := [],
        message := some "Not enough tracks analyzed for smart ordering" }
    | current :: remaining =>
      let g := greedyGo remaining.length current remaining
      { order := current.1 :: g.1, scores := g.2, message := none }

/-- The "from->to" keys of the consecutive pairs of an id sequence — the
spec's description of the edge-score map. -/
def edgeKeys : List Int → List String
  | a :: b :: rest => (toString a ++ "->" ++ toString b) :: edgeKeys (b :: rest)
  | _ => []

/-- Playlist with tracks 1 and 2 analyzed and track 3 not analyzed. -/
def cexTracks : List TrackEntry :=
  [⟨1, some (mkAnalysis 1 128 "Am" 0.7)⟩,
   ⟨2, some (mkAnalysis 2 126 "Am" 0.6)⟩,
   ⟨3, none⟩]

/-! ## Downbeat construction (`analysis.py`, lines 157-158 and 245-250)

`analyze_audio` delegates beat tracking to librosa (the external feature
extractor); the downbeats field is computed from the returned beat
timestamp list by the pure code modelled here. -/

/-- `beat_times[::4]`: every 4th element of the list (indices 0, 4, 8, ...). -/
def sliceStep4 : List ℚ → List ℚ
  | [] => []
  | [a] => [a]
  | [a, _] => [a]
  | [a, _, _] => [a]
  | a :: _ :: _ :: _ :: rest => a :: sliceStep4 rest

/-- Downbeat estimation (`analysis.py`, line 158):
`beat_times[::4] if len(beat_times) >= 4 else beat_times`. -/
def downbeats_of (beat_times : List ℚ) : List ℚ :=
  if 4 ≤ beat_times.length then sliceStep4 beat_times else beat_times

/-- The `downbeats` field of the built record (`analysis.py`, line 247):
`[round(d, 3) for d in downbeats[:50]]`. -/
def downbeatsField (beat_times : List ℚ) : List ℚ :=
  ((downbeats_of beat_times).take 50).map round3

/-- The spec's reading of the downbeats: "every 4th beat timestamp
(indices 0, 4, 8, ...)", written as a recursion that keeps the head and
then skips three elements. -/
def specEvery4 : List ℚ → List ℚ
  | [] => []
  | a :: rest => a :: specEvery4 (rest.drop 3)
termination_by l => l.length
decreasing_by simp [List.length_drop]; omega

/-! ## Stem separation (`analysis.py`, lines 273-430; `tracks.py`, lines 250-294)

The filesystem (per-track `status.json` plus stem `.wav` files) is modelled
as an explicit store; librosa's DSP transforms (hpss, masked stft/istft)
and the Demucs subprocess are external collaborators whose outputs are
parameters. -/

/-- Contents of a per-track `status.json`
(the `StemStatus` shape of `tracks.py`, lines 50-59). -/
structure StatusRecord where
  trackId : Int
  status : String
  drums : Option String := none
  bass : Option String := none
  vocals : Option String := none
  other : Option String := none
  error : Option String := none
deriving DecidableEq

/-- The stems directory: a `status.json` per track and stem audio files
keyed by (track id, stem name). -/
structure StemsStore where
  statusOf : Int → Option StatusRecord
  fileOf : Int → String → Option (List ℚ)

/-- `get_stem_status` (`analysis.py`, lines 424-430). -/
def get_stem_status (s : StemsStore) (track_id : Int) : Option StatusRecord :=
  s.statusOf track_id

/-- Writing `status.json` for a track. -/
def setStatus (s : StemsStore) (track_id : Int) (r : StatusRecord) : StemsStore :=
  { s with statusOf := fun t => if t = track_id then some r else s.statusOf t }

/-- Writing one stem audio file. -/
def writeStemFile (s : StemsStore) (track_id : Int) (name : String)
    (data : List ℚ) : StemsStore :=
  { s with fileOf := fun t n =>
      if t = track_id ∧ n = name then some data else s.fileOf t n }

/-- `f"/api/tracks/{track_id}/stems/{name}"`. -/
def stemUrl (track_id : Int) (name : String) : String :=
  "/api/tracks/" ++ toString track_id ++ "/stems/" ++ name

/-- The `"processing"` status dict (`analysis.py`, lines 289-292). -/
def processingRecord (track_id : Int) : StatusRecord :=
  { trackId := track_id, status := "processing" }

/-- The `"ready"` status dict (`analysis.py`, lines 337-344). -/
def readyRecord (track_id : Int) : StatusRecord :=
  { trackId := track_id, status := "ready",
    drums := some (stemUrl track_id "drums"),
    bass := some (stemUrl track_id "bass"),
    vocals := some (stemUrl track_id "vocals"),
    other := some (stemUrl track_id "other") }

/-- The `"error"` status dict (`analysis.py`, lines 351-355). -/
def errorRecord (track_id : Int) (msg : String) : StatusRecord :=
  { trackId := track_id, status := "error", error := some msg }

/-- The four stem names (`analysis.py`, line 326). -/
def stemNames : List String := ["drums", "bass", "vocals", "other"]

/-- `np.max(np.abs(stem))` for a nonempty signal (folding in 0 is harmless
because every `|q|` is nonnegative). -/
def maxAbs (stem : List ℚ) : ℚ := (stem.map (fun q => |q|)).foldr max 0

/-- The per-stem normalization of `create_pseudo_stems`
(`analysis.py`, lines 408-411): scale to 90% of full amplitude unless the
stem is silent. -/
def normalizeStem (stem : List ℚ) : List ℚ :=
  if maxAbs stem > 0 then stem.map (fun q => q / maxAbs stem * 0.9) else stem

/-- The length matching of `create_pseudo_stems` (`analysis.py`,
lines 413-417): zero-pad or truncate to `n` samples. -/
def fitLength (n : Nat) (stem : List ℚ) : List ℚ :=
  if stem.length < n then stem ++ List.replicate (n - stem.length) 0
  else stem.take n

/-- `create_pseudo_stems` (`analysis.py`, lines 361-421): the four raw
signals (percussive component, low-passed, band-passed, harmonic component)
come from the librosa collaborator; each is normalized, length-matched to
the mono downmix and written under its stem name. -/
def create_pseudo_stems (y_mono drums_raw bass_raw vocals_raw other_raw : List ℚ) :
    List (String × List ℚ) :=
  [("drums", drums_raw), ("bass", bass_raw), ("vocals", vocals_raw),
   ("other", other_raw)].map
    (fun p => (p.1, fitLength y_mono.length (normalizeStem p.2)))

/-- Outcome of the Demucs primary path: the package may be missing
(ImportError → fallback), the subprocess may return an exit code with
stderr and the stem files it produced, or it may hit the 600 s timeout. -/
inductive DemucsBackend where
  | missing
  | run (returncode : Int) (stderr : String) (outputs : String → Option (List ℚ))
  | timeoutExpired

/-- `separate_stems` (`analysis.py`, lines 273-358).  Returns the status it
reports, the updated store, and whether any separation work was performed. -/
def separate_stems (s : StemsStore) (track_id : Int) (backend : DemucsBackend)
    (y_mono drums_raw bass_raw vocals_raw other_raw : List ℚ) :
    Option StatusRecord × StemsStore × Bool :=
  if (s.fileOf track_id "drums").isSome then
    (get_stem_status s track_id, s, false)
  else
    let s1 := setStatus s track_id (processingRecord track_id)
    match backend with
    | .missing =>
      let stems := create_pseudo_stems y_mono drums_raw bass_raw vocals_raw other_raw
      let s2 := stems.foldl (fun acc p => writeStemFile acc track_id p.1 p.2) s1
      let st := readyRecord track_id
      (some st, setStatus s2 track_id st, true)
    | .run rc err outputs =>
      if rc ≠ 0 then
        let st := errorRecord track_id ("Demucs failed: " ++ err)
        (some st, setStatus s1 track_id st, true)
      else
        let s2 := stemNames.foldl (fun acc name =>
          match outputs name with
          | some data => writeStemFile acc track_id name data
          | none => acc) s1
        let st := readyRecord track_id
        (some st, setStatus s2 track_id st, true)
    | .timeoutExpired =>
      let st := errorRecord track_id "Demucs subprocess timed out"
      (some st, setStatus s1 track_id st, true)

/-- The body of `request_stems` after the short-circuit checks
(`tracks.py`, lines 276-294): download the audio (`none` = download
failure, HTTP 500) and run `separate_stems`; a `None` status from
`separate_stems` makes `StemStatus(**result)` raise, which the route's
`except` turns into an unpersisted error status. -/
def request_stems_go (s : StemsStore) (track_id : Int) (audio : Option Unit)
    (backend : DemucsBackend) (y_mono d b v o : List ℚ) :
    Except String StatusRecord × StemsStore × Bool :=
  match audio with
  | none => (.error "Failed to download audio for stem separation", s, false)
  | some _ =>
    match separate_stems s track_id backend y_mono d b v o with
    | (some st, s2, w) => (.ok st, s2, w)
    | (none, s2, w) =>
      (.ok { trackId := track_id, status := "error",
             error := some "TypeError: argument of type NoneType is not a mapping" },
       s2, w)

/-- `request_stems` (`tracks.py`, lines 250-294): a persisted "ready" or
"processing" status short-circuits; otherwise the work path runs. -/
def request_stems (s : StemsStore) (track_id : Int) (audio : Option Unit)
    (backend : DemucsBackend) (y_mono d b v o : List ℚ) :
    Except String StatusRecord × StemsStore × Bool :=
  match get_stem_status s track_id with
  | some existing =>
    if existing.status = "ready" then (.ok existing, s, false)
    else if existing.status = "processing" then (.ok existing, s, false)
    else request_stems_go s track_id audio backend y_mono d b v o
  | none => request_stems_go s track_id audio backend y_mono d b v o

/-- A store whose only record is a "processing" status for track 5. -/
def procStore : StemsStore :=
  { statusOf := fun t => if t = 5 then some (processingRecord 5) else none,
    fileOf := fun _ _ => none }

/-! # Theorems -/

/-! ## Basic bounds on the sub-scores -/

lemma bpmScoreMix_ge (a b : ℚ) : 10 ≤ bpmScoreMix a b := by
  simp only [bpmScoreMix]
  split_ifs <;> simp [le_max_left]

lemma bpmScoreMix_self (v : ℚ) : bpmScoreMix v v = 100 := by
  by_cases hv : v > 0
  · simp only [bpmScoreMix, if_pos hv, div_self hv.ne']
    norm_num
  · simp only [bpmScoreMix, if_neg hv]
    norm_num

lemma keyScoreVal_ge (a b : String) : 20 ≤ keyScoreVal a b := by
  simp only [keyScoreVal]
  split_ifs <;> simp [le_max_left]

lemma keyScoreVal_self (k : String) : keyScoreVal k k = 100 := by
  simp [keyScoreVal]

lemma energyScoreVal_ge (a b : ℚ) : 40 ≤ energyScoreVal a b := by
  simp only [energyScoreVal]
  split_ifs <;> norm_num

/-- The score field of `calculate_mix_compatibility` unfolded. -/
lemma mix_score_eq (a b : Analysis) :
    (calculate_mix_compatibility a b).score =
      ratTrunc ((bpmScoreMix a.bpm b.bpm : ℚ) * 0.4 +
        (keyScoreVal a.key b.key : ℚ) * 0.35 +
        (energyScoreVal a.energy b.energy : ℚ) * 0.25) := rfl

lemma mix_bpmMatch_eq (a b : Analysis) :
    (calculate_mix_compatibility a b).bpmMatch = bpmScoreMix a.bpm b.bpm := rfl

lemma mix_keyMatch_eq (a b : Analysis) :
    (calculate_mix_compatibility a b).keyMatch = keyScoreVal a.key b.key := rfl

lemma mix_energyFlow_eq (a b : Analysis) :
    (calculate_mix_compatibility a b).energyFlow = energyScoreVal a.energy b.energy := rfl

/-! ## C1 -/

/-- C1 (counterexample): the claim "overall = round(0.4·bpmScore + 0.35·keyScore
+ 0.25·energyScore)" is false on the code.  With a = (128 BPM, Am, 0.7) and
b = (128 BPM, G, 0.7) the sub-scores are 100/65/100, the weighted sum 87.75,
and the code returns `int(87.75) = 87` while rounding would give 88. -/
theorem C1_cex_int_is_not_round :
    (calculate_mix_compatibility (mkAnalysis 1 128 "Am" 0.7) (mkAnalysis 2 128 "G" 0.7)).score ≠
      pyRound
        (((calculate_mix_compatibility (mkAnalysis 1 128 "Am" 0.7) (mkAnalysis 2 128 "G" 0.7)).bpmMatch : ℚ) * 0.4 +
         ((calculate_mix_compatibility (mkAnalysis 1 128 "Am" 0.7) (mkAnalysis 2 128 "G" 0.7)).keyMatch : ℚ) * 0.35 +
         ((calculate_mix_compatibility (mkAnalysis 1 128 "Am" 0.7) (mkAnalysis 2 128 "G" 0.7)).energyFlow : ℚ) * 0.25) := by
  have hb : bpmScoreMix 128 128 = 100 := by simp only [bpmScoreMix]; norm_num
  have hk : keyScoreVal "Am" "G" = 65 := rfl
  have he : energyScoreVal 0.7 0.7 = 100 := by simp only [energyScoreVal]; norm_num
  simp only [mix_score_eq, mix_bpmMatch_eq, mix_keyMatch_eq, mix_energyFlow_eq,
    mkAnalysis, hb, hk, he, ratTrunc, pyRound]
  norm_num

/-- C1 (amended): for every pair of analysis records the overall score of
`calculate_mix_compatibility` is the weighted sum truncated toward zero
(`int(...)` in Python), which — the sum being nonnegative — is its floor,
not its nearest-integer rounding. -/
theorem C1_overall_is_floor (a b : Analysis) :
    (calculate_mix_compatibility a b).score =
      ⌊((calculate_mix_compatibility a b).bpmMatch : ℚ) * 0.4 +
        ((calculate_mix_compatibility a b).keyMatch : ℚ) * 0.35 +
        ((calculate_mix_compatibility a b).energyFlow : ℚ) * 0.25⌋ := by
  have hb : (10:ℚ) ≤ (bpmScoreMix a.bpm b.bpm : ℚ) := by
    exact_mod_cast bpmScoreMix_ge a.bpm b.bpm
  have hk : (20:ℚ) ≤ (keyScoreVal a.key b.key : ℚ) := by
    exact_mod_cast keyScoreVal_ge a.key b.key
  have he : (40:ℚ) ≤ (energyScoreVal a.energy b.energy : ℚ) := by
    exact_mod_cast energyScoreVal_ge a.energy b.energy
  rw [mix_score_eq, mix_bpmMatch_eq, mix_keyMatch_eq, mix_energyFlow_eq, ratTrunc, if_pos]
  nlinarith

/-! ## C2 -/

/-- C2 (counterexample): the claim "energy delta ≥ 0.15 on one side makes the
score asymmetric" fails once the delta reaches 0.3: with equal BPM and key and
energies 0.25 / 0.75 both directions give energy score 40 and overall 85. -/
theorem C2_cex_symmetric_at_large_delta :
    (mkAnalysis 1 128 "Am" 0.25).bpm = (mkAnalysis 2 128 "Am" 0.75).bpm ∧
    (mkAnalysis 1 128 "Am" 0.25).key = (mkAnalysis 2 128 "Am" 0.75).key ∧
    (0.15 : ℚ) ≤ (mkAnalysis 2 128 "Am" 0.75).energy - (mkAnalysis 1 128 "Am" 0.25).energy ∧
    (calculate_mix_compatibility (mkAnalysis 1 128 "Am" 0.25) (mkAnalysis 2 128 "Am" 0.75)).score =
      (calculate_mix_compatibility (mkAnalysis 2 128 "Am" 0.75) (mkAnalysis 1 128 "Am" 0.25)).score := by
  refine ⟨rfl, rfl, by norm_num [mkAnalysis], ?_⟩
  have hb : bpmScoreMix 128 128 = 100 := bpmScoreMix_self 128
  have hk : keyScoreVal "Am" "Am" = 100 := keyScoreVal_self "Am"
  have he1 : energyScoreVal 0.25 0.75 = 40 := by simp only [energyScoreVal]; norm_num [abs_lt]
  have he2 : energyScoreVal 0.75 0.25 = 40 := by simp only [energyScoreVal]; norm_num [abs_lt]
  simp only [mix_score_eq, mkAnalysis, hb, hk, he1, he2]

/-- C2 (amended): with equal BPM, equal key and a directional energy delta
in [0.15, 0.3) the scorer is not symmetric: the forward energy score is 85
(overall 96) while the reverse one is 80 or 70 (overall 95 or 92). -/
theorem C2_asymmetric_for_moderate_delta (a b : Analysis)
    (hbpm : a.bpm = b.bpm) (hkey : a.key = b.key)
    (h1 : (0.15 : ℚ) ≤ b.energy - a.energy) (h2 : b.energy - a.energy < 0.3) :
    (calculate_mix_compatibility a b).score ≠ (calculate_mix_compatibility b a).score := by
  have hb1 : bpmScoreMix a.bpm b.bpm = 100 := by rw [hbpm]; exact bpmScoreMix_self _
  have hb2 : bpmScoreMix b.bpm a.bpm = 100 := by rw [hbpm]; exact bpmScoreMix_self _
  have hk1 : keyScoreVal a.key b.key = 100 := by rw [hkey]; exact keyScoreVal_self _
  have hk2 : keyScoreVal b.key a.key = 100 := by rw [hkey]; exact keyScoreVal_self _
  have he1 : energyScoreVal a.energy b.energy = 85 := by
    simp only [energyScoreVal]
    rw [if_neg (by rintro ⟨_, hc⟩; linarith),
        if_neg (by rw [abs_lt]; rintro ⟨_, hc⟩; linarith),
        if_pos ⟨h1, h2⟩]
  have hs1 : (calculate_mix_compatibility a b).score = 96 := by
    simp only [mix_score_eq, hb1, hk1, he1, ratTrunc]
    norm_num
  rcases eq_or_lt_of_le h1 with heq | hlt
  · have he2 : energyScoreVal b.energy a.energy = 80 := by
      simp only [energyScoreVal]
      rw [if_neg (by rintro ⟨hc, _⟩; linarith),
          if_neg (by rw [abs_lt]; rintro ⟨hc, _⟩; linarith),
          if_neg (by rintro ⟨hc, _⟩; linarith),
          if_pos ⟨by linarith, by linarith⟩]
    have hs2 : (calculate_mix_compatibility b a).score = 95 := by
      simp only [mix_score_eq, hb2, hk2, he2, ratTrunc]
      norm_num
    rw [hs1, hs2]; decide
  · have he2 : energyScoreVal b.energy a.energy = 70 := by
      simp only [energyScoreVal]
      rw [if_neg (by rintro ⟨hc, _⟩; linarith),
          if_neg (by rw [abs_lt]; rintro ⟨hc, _⟩; linarith),
          if_neg (by rintro ⟨hc, _⟩; linarith),
          if_neg (by rintro ⟨hc, _⟩; linarith),
          if_pos (abs_lt.mpr ⟨by linarith, by linarith⟩)]
    have hs2 : (calculate_mix_compatibility b a).score = 92 := by
      simp only [mix_score_eq, hb2, hk2, he2, ratTrunc]
      norm_num
    rw [hs1, hs2]; decide

/-- C2 (witness): tracks with equal BPM and key and energies 0.5 / 0.75. -/
theorem C2_asymmetric_witness :
    (calculate_mix_compatibility (mkAnalysis 1 128 "Am" 0.5) (mkAnalysis 2 128 "Am" 0.75)).score ≠
      (calculate_mix_compatibility (mkAnalysis 2 128 "Am" 0.75) (mkAnalysis 1 128 "Am" 0.5)).score :=
  C2_asymmetric_for_moderate_delta _ _ rfl rfl
    (by norm_num [mkAnalysis]) (by norm_num [mkAnalysis])

/-! ## C10 -/

/-- C10: if neither normalized key name is a recognized Camelot key, the
scorer substitutes the default position (8, "A") for both sides and returns
keyMatch = 100. -/
theorem C10_unknown_keys_match (a b : Analysis)
    (ha : CAMELOT_MAP.lookup (normalize_key a.key) = none)
    (hb : CAMELOT_MAP.lookup (normalize_key b.key) = none) :
    (calculate_mix_compatibility a b).keyMatch = 100 := by
  have h1 : camelotGet (normalize_key a.key) = (8, "A") := by
    rw [camelotGet, ha]; rfl
  have h2 : camelotGet (normalize_key b.key) = (8, "A") := by
    rw [camelotGet, hb]; rfl
  rw [mix_keyMatch_eq]
  simp [keyScoreVal, h1, h2]

/-- C10 (witness): "H" and "Qm" are not recognized key names; the pair
scores keyMatch = 100. -/
theorem C10_unknown_keys_witness :
    (calculate_mix_compatibility (mkAnalysis 1 128 "H" 0.7) (mkAnalysis 2 120 "Qm" 0.5)).keyMatch = 100 :=
  C10_unknown_keys_match _ _ rfl rfl

/-! ## C4 -/

/-- C4: contrary to the spec's CacheCorruption design, a malformed persisted
record is NOT treated as a miss: `get_cached_analysis` raises (propagating
`json.JSONDecodeError`), and the next analyze request for that track fails
without recomputing or overwriting the bad record. -/
theorem C4_malformed_record_raises :
    get_cached_analysis corruptStore 42 =
      .error ("JSONDecodeError while parsing " ++ "not valid json") ∧
    analyze_track corruptStore 42 (mkAnalysis 42 128 "Am" 0.7) =
      .error ("JSONDecodeError while parsing " ++ "not valid json") := by
  constructor <;> rfl

/-! ## C5 -/

/-- C5: `cache_analysis` then `get_cached_analysis` round-trips the record
field for field, and reading a track id that was never written returns the
absence signal `none` without raising. -/
theorem C5_cache_roundtrip (store : Store) (t : Int) (a : Analysis)
    (u : Int) (hu : store u = none) :
    get_cached_analysis (cache_analysis store t a) t = .ok (some a) ∧
    get_cached_analysis store u = .ok none := by
  constructor
  · simp [get_cached_analysis, cache_analysis]
  · simp [get_cached_analysis, hu]

/-- C5 (witness): the empty store, writing track 1 and reading back; reading
the never-written track 2. -/
theorem C5_cache_roundtrip_witness :
    get_cached_analysis (cache_analysis (fun _ => none) 1 (mkAnalysis 1 128 "Am" 0.7)) 1 =
      .ok (some (mkAnalysis 1 128 "Am" 0.7)) ∧
    get_cached_analysis (fun _ => none) 2 = .ok none :=
  C5_cache_roundtrip (fun _ => none) 1 (mkAnalysis 1 128 "Am" 0.7) 2 rfl

/-! ## Greedy-loop lemmas -/

lemma bpmScoreSimple_ge (a b : ℚ) : 10 ≤ bpmScoreSimple a b := by
  simp only [bpmScoreSimple]
  split_ifs <;> norm_num [le_max_left]

/-- Every edge score is at least 21, so the loop's `best_score = -1`
initialization is always beaten by the first candidate. -/
lemma calculate_compatibility_score_ge (a b : Analysis) :
    21 ≤ calculate_compatibility_score a b := by
  have hb : (10:ℚ) ≤ bpmScoreSimple a.bpm b.bpm := bpmScoreSimple_ge a.bpm b.bpm
  have hk : (20:ℚ) ≤ (keyScoreVal a.key b.key : ℚ) := by
    exact_mod_cast keyScoreVal_ge a.key b.key
  have he : (40:ℚ) ≤ (energyScoreVal a.energy b.energy : ℚ) := by
    exact_mod_cast energyScoreVal_ge a.energy b.energy
  have hsum : (21:ℚ) ≤ bpmScoreSimple a.bpm b.bpm * 0.4 +
      (keyScoreVal a.key b.key : ℚ) * 0.35 +
      (energyScoreVal a.energy b.energy : ℚ) * 0.25 := by nlinarith
  have h0 : (0:ℚ) ≤ bpmScoreSimple a.bpm b.bpm * 0.4 +
      (keyScoreVal a.key b.key : ℚ) * 0.35 +
      (energyScoreVal a.energy b.energy : ℚ) * 0.25 := by linarith
  rw [calculate_compatibility_score, ratTrunc, if_pos h0]
  exact Int.le_floor.mpr (by exact_mod_cast hsum)

lemma extract_perm (cur : Analysis) (x : Int × Analysis)
    (l : List (Int × Analysis)) :
    ((extract cur x l).1 :: (extract cur x l).2).Perm (x :: l) := by
  induction l generalizing x with
  | nil => simp [extract]
  | cons y ys ih =>
    simp only [extract]
    by_cases hgt : calculate_compatibility_score cur (extract cur y ys).1.2 >
        calculate_compatibility_score cur x.2
    · rw [if_pos hgt]
      exact (List.Perm.swap x (extract cur y ys).1 _).trans ((ih y).cons x)
    · rw [if_neg hgt]

lemma extract_length (cur : Analysis) (x : Int × Analysis)
    (l : List (Int × Analysis)) :
    (extract cur x l).2.length = l.length := by
  have := (extract_perm cur x l).length_eq
  simpa using this

lemma greedyGo_perm : ∀ (n : Nat) (cur : Int × Analysis)
    (rem : List (Int × Analysis)), rem.length = n →
    ((greedyGo n cur rem).1).Perm (rem.map Prod.fst) :=
  fun n => by
    induction n with
    | zero =>
      intro cur rem h
      rw [List.length_eq_zero] at h
      subst h
      simp [greedyGo]
    | succ n ih =>
      intro cur rem h
      match rem with
      | [] => simp at h
      | z :: zs =>
        simp only [greedyGo]
        have hlen : (extract cur.2 z zs).2.length = n := by
          rw [extract_length]
          simpa using h
        have hperm := extract_perm cur.2 z zs
        have htail := ih (extract cur.2 z zs).1 (extract cur.2 z zs).2 hlen
        exact (htail.cons _).trans (by simpa using hperm.map Prod.fst)

lemma greedyGo_keys : ∀ (n : Nat) (cur : Int × Analysis)
    (rem : List (Int × Analysis)), rem.length = n →
    ((greedyGo n cur rem).2).map Prod.fst =
      edgeKeys (cur.1 :: (greedyGo n cur rem).1) :=
  fun n => by
    induction n with
    | zero =>
      intro cur rem h
      rw [List.length_eq_zero] at h
      subst h
      simp [greedyGo, edgeKeys]
    | succ n ih =>
      intro cur rem h
      match rem with
      | [] => simp at h
      | z :: zs =>
        simp only [greedyGo]
        have hlen : (extract cur.2 z zs).2.length = n := by
          rw [extract_length]
          simpa using h
        have htail := ih (extract cur.2 z zs).1 (extract cur.2 z zs).2 hlen
        simp only [List.map_cons, htail, edgeKeys]

/-! ## C3 -/

/-- C3 (amended): with at least 2 analyzed tracks, the returned order is a
permutation of the ids of the ANALYZED tracks only (tracks without a cached
analysis are dropped from the output, not merely from scoring), and the
score map carries exactly one "from->to" key per consecutive pair of the
returned order. -/
theorem C3_order_perm_of_analyzed (tracks : List TrackEntry)
    (h2 : 2 ≤ (analyzedOf tracks).length) :
    (get_smart_order tracks).order.Perm ((analyzedOf tracks).map Prod.fst) ∧
    (get_smart_order tracks).scores.map Prod.fst =
      edgeKeys (get_smart_order tracks).order ∧
    (get_smart_order tracks).message = none := by
  rcases hc : analyzedOf tracks with _ | ⟨c, rest⟩
  · rw [hc] at h2; simp at h2
  · have hval : get_smart_order tracks =
        { order := c.1 :: (greedyGo rest.length c rest).1,
          scores := (greedyGo rest.length c rest).2, message := none } := by
      simp only [get_smart_order, hc]
      rw [if_neg (not_lt.2 (hc ▸ h2))]
    rw [hval]
    refine ⟨?_, ?_, rfl⟩
    · exact (greedyGo_perm rest.length c rest rfl).cons c.1
    · exact greedyGo_keys rest.length c rest rfl

/-- C3 (counterexample): on a 3-track playlist with only tracks 1 and 2
analyzed, the returned order is [1, 2] — not a permutation of the full
input id sequence [1, 2, 3]: the unanalyzed track is dropped entirely. -/
theorem C3_cex_unanalyzed_dropped :
    2 ≤ (analyzedOf cexTracks).length ∧
    ¬ (get_smart_order cexTracks).order.Perm (cexTracks.map (fun t => t.id)) := by
  refine ⟨by decide, ?_⟩
  intro hperm
  have horder : (get_smart_order cexTracks).order = [1, 2] := rfl
  have hids : cexTracks.map (fun t => t.id) = [1, 2, 3] := rfl
  have hlen := hperm.length_eq
  rw [horder, hids] at hlen
  simp at hlen

/-- C3 (witness): a playlist whose 2 tracks are both analyzed. -/
theorem C3_order_perm_witness :
    (get_smart_order [⟨1, some (mkAnalysis 1 128 "Am" 0.7)⟩,
                      ⟨2, some (mkAnalysis 2 126 "Am" 0.6)⟩]).order.Perm
      ((analyzedOf [⟨1, some (mkAnalysis 1 128 "Am" 0.7)⟩,
                    ⟨2, some (mkAnalysis 2 126 "Am" 0.6)⟩]).map Prod.fst) ∧
    (get_smart_order [⟨1, some (mkAnalysis 1 128 "Am" 0.7)⟩,
                      ⟨2, some (mkAnalysis 2 126 "Am" 0.6)⟩]).scores.map Prod.fst =
      edgeKeys (get_smart_order [⟨1, some (mkAnalysis 1 128 "Am" 0.7)⟩,
                                 ⟨2, some (mkAnalysis 2 126 "Am" 0.6)⟩]).order ∧
    (get_smart_order [⟨1, some (mkAnalysis 1 128 "Am" 0.7)⟩,
                      ⟨2, some (mkAnalysis 2 126 "Am" 0.6)⟩]).message = none :=
  C3_order_perm_of_analyzed _ (by decide)

/-! ## C9 -/

/-- C9: with fewer than 2 analyzed tracks, the smart orderer returns the
original track order unchanged, an empty edge-score map, and the
explanatory note. -/
theorem C9_too_few_analyzed (tracks : List TrackEntry)
    (h : (analyzedOf tracks).length < 2) :
    get_smart_order tracks =
      { order := tracks.map (fun t => t.id), scores := [],
        message := some "Not enough tracks analyzed for smart ordering" } := by
  simp only [get_smart_order]
  rw [if_pos h]

/-- C9 (witness): a 3-track playlist with a single analyzed track keeps the
order [1, 2, 3]. -/
theorem C9_too_few_analyzed_witness :
    get_smart_order [⟨1, some (mkAnalysis 1 128 "Am" 0.7)⟩, ⟨2, none⟩, ⟨3, none⟩] =
      { order := [1, 2, 3], scores := [],
        message := some "Not enough tracks analyzed for smart ordering" } := by
  rw [C9_too_few_analyzed _ (by decide)]
  rfl

/-! ## Downbeat lemmas -/

lemma sliceStep4_eq_specEvery4 : (l : List ℚ) → sliceStep4 l = specEvery4 l
  | [] => by simp [sliceStep4, specEvery4]
  | [a] => by simp [sliceStep4, specEvery4]
  | [a, b] => by simp [sliceStep4, specEvery4]
  | [a, b, c] => by simp [sliceStep4, specEvery4]
  | a :: b :: c :: d :: rest => by
    simp [sliceStep4, specEvery4, sliceStep4_eq_specEvery4 rest]

lemma specEvery4_getElem? : (l : List ℚ) → (i : Nat) →
    (specEvery4 l)[i]? = l[4 * i]?
  | [], i => by simp [specEvery4]
  | a :: rest, 0 => by simp [specEvery4]
  | a :: rest, i + 1 => by
    rw [specEvery4]
    have hrec := specEvery4_getElem? (rest.drop 3) i
    have hidx : 4 * (i + 1) = (3 + 4 * i) + 1 := by ring
    simp only [hidx, List.getElem?_cons_succ, hrec, List.getElem?_drop]
termination_by l _ => l.length
decreasing_by simp [List.length_drop]; omega

/-! ## C6 -/

/-- C6 (counterexample): with only 3 beat timestamps the code keeps ALL of
them as downbeats (`else beat_times` branch), while "every 4th timestamp"
would keep only the first. -/
theorem C6_cex_short_beat_list :
    downbeatsField [0, 1, 2] = [0, 1, 2] ∧
    ((specEvery4 [0, 1, 2]).take 50).map round3 = [0] ∧
    downbeatsField [0, 1, 2] ≠ ((specEvery4 [0, 1, 2]).take 50).map round3 := by
  have h0 : round3 0 = 0 := by simp only [round3, pyRound]; norm_num
  have h1 : round3 1 = 1 := by simp only [round3, pyRound]; norm_num
  have h2 : round3 2 = 2 := by simp only [round3, pyRound]; norm_num
  have hdf : downbeatsField [0, 1, 2] = [0, 1, 2] := by
    simp [downbeatsField, downbeats_of, h0, h1, h2]
  have hspec : ((specEvery4 [0, 1, 2]).take 50).map round3 = [0] := by
    rw [specEvery4]
    simp [specEvery4, h0]
  refine ⟨hdf, hspec, ?_⟩
  rw [hdf, hspec]
  simp

/-- C6 (amended): the downbeats field is every 4th beat timestamp capped at
50 entries only when the extractor returned at least 4 beats; with fewer
than 4 beats the whole beat list is kept.  `specEvery4` really is the
"indices 0, 4, 8, ..." selection. -/
theorem C6_downbeats_every_4th (beats : List ℚ) :
    (4 ≤ beats.length →
      downbeatsField beats = ((specEvery4 beats).take 50).map round3) ∧
    (beats.length < 4 → downbeatsField beats = beats.map round3) ∧
    (∀ i, (specEvery4 beats)[i]? = beats[4 * i]?) := by
  refine ⟨?_, ?_, specEvery4_getElem? beats⟩
  · intro h
    rw [downbeatsField, downbeats_of, if_pos h, sliceStep4_eq_specEvery4]
  · intro h
    rw [downbeatsField, downbeats_of, if_neg (not_le.2 h),
      List.take_of_length_le (by omega)]

/-- C6 (witness): a 5-beat list uses every 4th timestamp; a 2-beat list is
kept whole. -/
theorem C6_downbeats_witness :
    downbeatsField [0, 1, 2, 3, 4] = ((specEvery4 [0, 1, 2, 3, 4]).take 50).map round3 ∧
    downbeatsField [0, 1] = [0, 1].map round3 :=
  ⟨(C6_downbeats_every_4th [0, 1, 2, 3, 4]).1 (by decide),
   (C6_downbeats_every_4th [0, 1]).2.1 (by decide)⟩

/-! ## C7 -/

/-- C7: a persisted "processing" or "ready" stem status makes a new
`request_stems` call return that very status, leave the store (status
record and every stem file) unchanged, and perform no separation work. -/
theorem C7_request_stems_short_circuits (s : StemsStore) (t : Int)
    (rec : StatusRecord) (audio : Option Unit) (backend : DemucsBackend)
    (y d b v o : List ℚ)
    (hrec : s.statusOf t = some rec)
    (hst : rec.status = "processing" ∨ rec.status = "ready") :
    request_stems s t audio backend y d b v o = (.ok rec, s, false) := by
  unfold request_stems get_stem_status
  rw [hrec]
  rcases hst with h | h <;> simp [h]

/-- C7 (witness): a second request for track 5 observes "processing" and
does nothing. -/
theorem C7_request_stems_witness :
    request_stems procStore 5 none .missing [] [] [] [] [] =
      (.ok (processingRecord 5), procStore, false) :=
  C7_request_stems_short_circuits procStore 5 (processingRecord 5) none .missing
    [] [] [] [] [] (by simp [procStore]) (Or.inl rfl)

/-! ## C8 -/

lemma le_maxAbs (stem : List ℚ) : ∀ q ∈ stem, |q| ≤ maxAbs stem := by
  intro q hq
  induction stem with
  | nil => simp at hq
  | cons x xs ih =>
    rcases List.mem_cons.mp hq with h | h
    · subst h
      simp only [maxAbs, List.map_cons, List.foldr_cons]
      exact le_max_left _ _
    · exact le_trans (ih h) (by
        simp only [maxAbs, List.map_cons, List.foldr_cons]
        exact le_max_right _ _)

lemma normalizeStem_bound (stem : List ℚ) : ∀ q ∈ normalizeStem stem, |q| ≤ 0.9 := by
  intro q hq
  by_cases hm : maxAbs stem > 0
  · rw [normalizeStem, if_pos hm] at hq
    rcases List.mem_map.mp hq with ⟨x, hx, rfl⟩
    have hxle : |x| ≤ maxAbs stem := le_maxAbs stem x hx
    have habs : |x / maxAbs stem * 0.9| = |x| / maxAbs stem * 0.9 := by
      rw [abs_mul, abs_div, abs_of_pos hm]
      norm_num
    rw [habs]
    have hdiv : |x| / maxAbs stem ≤ 1 := (div_le_one hm).mpr hxle
    nlinarith [abs_nonneg x]
  · rw [normalizeStem, if_neg hm] at hq
    have := le_maxAbs stem q hq
    have h0 := abs_nonneg q
    have : |q| ≤ 0 := le_trans this (not_lt.1 hm)
    linarith

lemma fitLength_length (n : Nat) (stem : List ℚ) :
    (fitLength n stem).length = n := by
  rw [fitLength]
  split_ifs with h
  · simp only [List.length_append, List.length_replicate]
    omega
  · simp only [List.length_take]
    omega

lemma fitLength_mem (n : Nat) (stem : List ℚ) :
    ∀ q ∈ fitLength n stem, q ∈ stem ∨ q = 0 := by
  intro q hq
  rw [fitLength] at hq
  split_ifs at hq with h
  · rcases List.mem_append.mp hq with h' | h'
    · exact Or.inl h'
    · exact Or.inr (List.eq_of_mem_replicate h')
  · exact Or.inl (List.mem_of_mem_take hq)

/-- C8: the fallback stem synthesis yields exactly the four stems drums,
bass, vocals, other; each has the sample length of the mono input and every
sample has absolute amplitude at most 0.9. -/
theorem C8_pseudo_stems_shape (y_mono drums_raw bass_raw vocals_raw other_raw : List ℚ) :
    (create_pseudo_stems y_mono drums_raw bass_raw vocals_raw other_raw).map Prod.fst =
      ["drums", "bass", "vocals", "other"] ∧
    ∀ p ∈ create_pseudo_stems y_mono drums_raw bass_raw vocals_raw other_raw,
      p.2.length = y_mono.length ∧ ∀ q ∈ p.2, |q| ≤ 0.9 := by
  constructor
  · rfl
  · intro p hp
    rcases List.mem_map.mp hp with ⟨r, _, rfl⟩
    constructor
    · exact fitLength_length _ _
    · intro q hq
      rcases fitLength_mem _ _ q hq with h | h
      · exact normalizeStem_bound _ q h
      · rw [h]
        norm_num

/-- C8 (witness): silent raw stems against a 2-sample input give four
2-sample zero stems. -/
theorem C8_pseudo_stems_witness :
    (create_pseudo_stems [1, -1] [] [] [] []).map Prod.fst =
      ["drums", "bass", "vocals", "other"] ∧
    (("drums", ([0, 0] : List ℚ)) : String × List ℚ).2.length =
      ([1, -1] : List ℚ).length ∧
    |(0 : ℚ)| ≤ 0.9 := by
  have hmem : (("drums", ([0, 0] : List ℚ)) : String × List ℚ) ∈
      create_pseudo_stems [1, -1] [] [] [] [] := by
    norm_num [create_pseudo_stems, normalizeStem, fitLength, maxAbs]
    exact Or.inl (by simp [List.replicate])
  have hall := (C8_pseudo_stems_shape [1, -1] [] [] [] []).2 _ hmem
  exact ⟨(C8_pseudo_stems_shape [1, -1] [] [] [] []).1, hall.1,
    hall.2 0 (by norm_num)⟩

end Beatly
